import Mathlib

/-!
Shallow embedding of the Ajedrez Sombras rules engine.

The piece hierarchy and movement generators follow
src/ajedrez_sombras/pieza_sombras.py; the battle controller follows
juego_sombras in src/main.py.  The board and AI collaborators
(TableroSombras, IASombras, constantes.py) are not part of the sources,
so their operations are modelled from the specification where needed.
-/

/-- Modelled from the spec: GRID_WIDTH from the missing constantes.py; the
board is an 8x8 grid with coordinates 0-7. -/
def GRID_WIDTH : Int := 8

/-- Modelled from the spec: GRID_HEIGHT from the missing constantes.py. -/
def GRID_HEIGHT : Int := 8

/-- Modelled from the spec: TEAM_PLAYER from the missing constantes.py; its
value is fixed by the string literals used in src/main.py. -/
def TEAM_PLAYER : String := "JUGADOR"

/-- Modelled from the spec: TEAM_ENEMY from the missing constantes.py; its
value is fixed by the string literals used in src/main.py. -/
def TEAM_ENEMY : String := "ENEMIGO"

/-- The Python class of a piece, deciding which obtener_movimientos_validos
override runs (PiezaSombra base class and its 6 subclasses). -/
inductive Clase where
  | base
  | peon
  | caballo
  | alfil
  | torre
  | reina
  | rey
deriving DecidableEq

/-- A PiezaSombra with the fields set by the constructors in
pieza_sombras.py (rendering-only fields are omitted).  The field
primer_movimiento exists only on PiezaSombraPeon in Python; here it is
carried by every piece and read only by the pawn generator. -/
structure Pieza where
  grid_x : Int
  grid_y : Int
  team : String
  tipo : String
  nombre : String
  es_boss : Bool
  hp : Int
  hp_max : Int
  damage : Int
  clase : Clase
  primer_movimiento : Bool
deriving DecidableEq

/-- Read-only board access used by the generators: the
tablero.obtener_pieza_en query of the external Board collaborator. -/
abbrev Consulta := Int → Int → Option Pieza

/-- PiezaSombra.esta_en_tablero: both coordinates in the 8x8 grid. -/
def esta_en_tablero (x y : Int) : Prop :=
  0 ≤ x ∧ x < GRID_WIDTH ∧ 0 ≤ y ∧ y < GRID_HEIGHT

instance instDecEstaEnTablero (x y : Int) : Decidable (esta_en_tablero x y) :=
  inferInstanceAs (Decidable (0 ≤ x ∧ x < GRID_WIDTH ∧ 0 ≤ y ∧ y < GRID_HEIGHT))

/-- Worker for PiezaSombra.obtener_movimientos_direccion: the loop
for i in range(1, max_pasos + 1), unrolled as recursion on the remaining
number of steps, with i the current step index. -/
def movimientos_direccion_desde (q : Consulta) (px py : Int) (team : String)
    (dx dy : Int) : Nat → Nat → List (Int × Int)
  | 0, _ => []
  | Nat.succ fuel, i =>
    if esta_en_tablero (px + dx * (i : Int)) (py + dy * (i : Int)) then
      match q (px + dx * (i : Int)) (py + dy * (i : Int)) with
      | none =>
          (px + dx * (i : Int), py + dy * (i : Int)) ::
            movimientos_direccion_desde q px py team dx dy fuel (i + 1)
      | some objetivo =>
          if objetivo.team ≠ team then
            [(px + dx * (i : Int), py + dy * (i : Int))]
          else []
    else []

/-- PiezaSombra.obtener_movimientos_direccion (its default max_pasos is 8;
callers pass it explicitly here). -/
def obtener_movimientos_direccion (p : Pieza) (q : Consulta) (dx dy : Int)
    (max_pasos : Nat) : List (Int × Int) :=
  movimientos_direccion_desde q p.grid_x p.grid_y p.team dx dy max_pasos 1

/-- Body of PiezaSombraPeon.obtener_movimientos_validos for a fixed value
of the local variable direccion: the forward squares followed by the
diagonal captures. -/
def movimientos_peon_dir (p : Pieza) (q : Consulta) (direccion : Int) :
    List (Int × Int) :=
  (if esta_en_tablero p.grid_x (p.grid_y + direccion) ∧
      q p.grid_x (p.grid_y + direccion) = none then
    if p.primer_movimiento = true ∧
        esta_en_tablero p.grid_x (p.grid_y + direccion * 2) ∧
        q p.grid_x (p.grid_y + direccion * 2) = none then
      [(p.grid_x, p.grid_y + direccion), (p.grid_x, p.grid_y + direccion * 2)]
    else
      [(p.grid_x, p.grid_y + direccion)]
  else []) ++
  ([-1, 1] : List Int).filterMap (fun dx =>
    if esta_en_tablero (p.grid_x + dx) (p.grid_y + direccion) then
      match q (p.grid_x + dx) (p.grid_y + direccion) with
      | some objetivo =>
          if objetivo.team ≠ p.team then
            some (p.grid_x + dx, p.grid_y + direccion)
          else none
      | none => none
    else none)

/-- PiezaSombraPeon.obtener_movimientos_validos: direccion is -1 for the
player team and 1 for the enemy team. -/
def movimientos_peon (p : Pieza) (q : Consulta) : List (Int × Int) :=
  movimientos_peon_dir p q (if p.team = TEAM_PLAYER then -1 else 1)

/-- The offsets list of PiezaSombraCaballo.obtener_movimientos_validos. -/
def offsets_caballo : List (Int × Int) :=
  [(1, 2), (1, -2), (-1, 2), (-1, -2), (2, 1), (2, -1), (-2, 1), (-2, -1)]

/-- The per-square acceptance test shared by the Caballo and Rey
generators: on the board and either empty or enemy-occupied. -/
def casilla_accesible (p : Pieza) (q : Consulta) (c : Int × Int) : Bool :=
  decide (esta_en_tablero c.1 c.2) &&
    (match q c.1 c.2 with
     | none => true
     | some objetivo => decide (objetivo.team ≠ p.team))

/-- PiezaSombraCaballo.obtener_movimientos_validos. -/
def movimientos_caballo (p : Pieza) (q : Consulta) : List (Int × Int) :=
  (offsets_caballo.map (fun o => (p.grid_x + o.1, p.grid_y + o.2))).filter
    (casilla_accesible p q)

/-- The direction list of PiezaSombraAlpil.obtener_movimientos_validos. -/
def direcciones_alfil : List (Int × Int) := [(1, 1), (1, -1), (-1, 1), (-1, -1)]

/-- The direction list of PiezaSombraTorre.obtener_movimientos_validos. -/
def direcciones_torre : List (Int × Int) := [(1, 0), (-1, 0), (0, 1), (0, -1)]

/-- The direction list of PiezaSombraReina.obtener_movimientos_validos. -/
def direcciones_reina : List (Int × Int) :=
  [(1, 0), (-1, 0), (0, 1), (0, -1), (1, 1), (1, -1), (-1, 1), (-1, -1)]

/-- PiezaSombraAlpil.obtener_movimientos_validos. -/
def movimientos_alfil (p : Pieza) (q : Consulta) : List (Int × Int) :=
  direcciones_alfil.flatMap (fun d => obtener_movimientos_direccion p q d.1 d.2 8)

/-- PiezaSombraTorre.obtener_movimientos_validos. -/
def movimientos_torre (p : Pieza) (q : Consulta) : List (Int × Int) :=
  direcciones_torre.flatMap (fun d => obtener_movimientos_direccion p q d.1 d.2 8)

/-- PiezaSombraReina.obtener_movimientos_validos. -/
def movimientos_reina (p : Pieza) (q : Consulta) : List (Int × Int) :=
  direcciones_reina.flatMap (fun d => obtener_movimientos_direccion p q d.1 d.2 8)

/-- The offsets list of PiezaSombraRey.obtener_movimientos_validos. -/
def offsets_rey : List (Int × Int) :=
  [(1, 0), (-1, 0), (0, 1), (0, -1), (1, 1), (1, -1), (-1, 1), (-1, -1)]

/-- PiezaSombraRey.obtener_movimientos_validos. -/
def movimientos_rey (p : Pieza) (q : Consulta) : List (Int × Int) :=
  (offsets_rey.map (fun o => (p.grid_x + o.1, p.grid_y + o.2))).filter
    (casilla_accesible p q)

/-- Virtual dispatch of obtener_movimientos_validos on the Python class of
the piece (the base class returns the empty list). -/
def obtener_movimientos_validos (p : Pieza) (q : Consulta) : List (Int × Int) :=
  match p.clase with
  | Clase.base => []
  | Clase.peon => movimientos_peon p q
  | Clase.caballo => movimientos_caballo p q
  | Clase.alfil => movimientos_alfil p q
  | Clase.torre => movimientos_torre p q
  | Clase.reina => movimientos_reina p q
  | Clase.rey => movimientos_rey p q

/-- PiezaSombra.recibir_damage: reduces hp by cantidad and reports whether
the piece died (hp ≤ 0 after the reduction). -/
def recibir_damage (p : Pieza) (cantidad : Int) : Pieza × Bool :=
  let p2 : Pieza := { p with hp := p.hp - cantidad }
  if p2.hp ≤ 0 then (p2, true) else (p2, false)

/-- PiezaSombra.recibir_damage acting on the live-piece collection: the
kill() call removes the dying sprite from every group, modelled as removal
of the piece at its coordinates from the live list (the Board invariant
gives at most one piece per coordinate). -/
def recibir_damage_vivos (vivos : List Pieza) (p : Pieza) (cantidad : Int) :
    List Pieza × Bool :=
  let r := recibir_damage p cantidad
  if r.2 then
    (vivos.filter (fun pz => !(decide (pz.grid_x = p.grid_x ∧ pz.grid_y = p.grid_y))),
     true)
  else
    (vivos.map (fun pz =>
      if pz.grid_x = p.grid_x ∧ pz.grid_y = p.grid_y then r.1 else pz),
     false)

/-- PiezaSombra.post_move and its PiezaSombraPeon override, dispatched on
the class: the pawn clears primer_movimiento, every other class is a
no-op. -/
def post_move (p : Pieza) : Pieza :=
  if p.clase = Clase.peon then { p with primer_movimiento := false } else p

/-- PiezaSombra.__init__ together with the subclass constructors.  The RPG
stats come from the STATS table of the missing constantes.py, so they are
abstract parameters here. -/
def nueva_pieza_sombra (gx gy : Int) (team tipo_key : String) (clase : Clase)
    (hp_inicial dmg : Int) (nombre : String) : Pieza :=
  { grid_x := gx, grid_y := gy, team := team, tipo := tipo_key,
    nombre := nombre, es_boss := false, hp := hp_inicial,
    hp_max := hp_inicial, damage := dmg, clase := clase,
    primer_movimiento := false }

/-- PiezaSombraPeon.__init__: the base constructor plus
primer_movimiento = True. -/
def nuevo_peon (x y : Int) (team : String) (hp_inicial dmg : Int)
    (nombre : String) : Pieza :=
  { nueva_pieza_sombra x y team "PEON" Clase.peon hp_inicial dmg nombre with
      primer_movimiento := true }

/-- PiezaSombraRey.__init__: tipo_key is BOSS when es_boss is set. -/
def nuevo_rey (x y : Int) (team : String) (es_boss : Bool)
    (hp_inicial dmg : Int) (nombre : String) : Pieza :=
  { nueva_pieza_sombra x y team (if es_boss then "BOSS" else "REY") Clase.rey
      hp_inicial dmg nombre with
      es_boss := es_boss }

/-- Modelled from the spec: the Board collaborator (TableroSombras) owns
the live piece collection; queries and terminal checks read it. -/
structure TableroSombras where
  piezas : List Pieza
deriving DecidableEq

/-- Modelled from the spec: TableroSombras.obtener_pieza_en returns the
piece occupying (x, y), if any (at most one piece per coordinate). -/
def obtener_pieza_en (t : TableroSombras) (x y : Int) : Option Pieza :=
  t.piezas.find? (fun pz => decide (pz.grid_x = x ∧ pz.grid_y = y))

/-- The board seen through its read-only query interface, as the
generators consume it. -/
def consulta (t : TableroSombras) : Consulta :=
  fun x y => obtener_pieza_en t x y

/-- Modelled from the spec: TableroSombras.boss_muerto is true when the
unique Boss piece is no longer present on the board. -/
def boss_muerto (t : TableroSombras) : Bool :=
  t.piezas.all (fun pz => !pz.es_boss)

/-- Modelled from the spec: TableroSombras.jugador_muerto is true when the
King of the Player team is no longer present on the board. -/
def jugador_muerto (t : TableroSombras) : Bool :=
  t.piezas.all (fun pz => !(decide (pz.team = TEAM_PLAYER ∧ pz.tipo = "REY")))

/-- Removal of whatever piece occupies (x, y) from the live collection. -/
def quitar_en (piezas : List Pieza) (x y : Int) : List Pieza :=
  piezas.filter (fun pz => !(decide (pz.grid_x = x ∧ pz.grid_y = y)))

/-- Relocation of a piece: it leaves its old square, takes the new
coordinates and its post-move hook runs. -/
def colocar (piezas : List Pieza) (p : Pieza) (x y : Int) : List Pieza :=
  (quitar_en piezas p.grid_x p.grid_y) ++
    [post_move { p with grid_x := x, grid_y := y }]

/-- Modelled from the spec: TableroSombras.mover_pieza relocates the piece,
clears the vacated coordinate, triggers combat resolution when the
destination held an enemy piece before the move, and invokes the post-move
hook.  When the defender survives the damage, the attacker stays put (the
spec leaves the placement after a non-lethal capture unspecified). -/
def mover_pieza (t : TableroSombras) (p : Pieza) (x y : Int) : TableroSombras :=
  match obtener_pieza_en t x y with
  | some objetivo =>
    if objetivo.team ≠ p.team then
      let r := recibir_damage objetivo p.damage
      if r.2 then
        { piezas := colocar (quitar_en t.piezas x y) p x y }
      else
        { piezas := (quitar_en t.piezas x y) ++ [r.1] }
    else t
  | none => { piezas := colocar t.piezas p x y }

/-- Outcome printed by juego_sombras when the match ends. -/
inductive Resultado where
  | victoria
  | derrota
deriving DecidableEq

/-- The local state of the juego_sombras loop in src/main.py: the board,
the turn owner, the selected piece, the loop flag and the announced
outcome. -/
structure EstadoSombras where
  tablero : TableroSombras
  turno : String
  pieza_seleccionada : Option Pieza
  corriendo : Bool
  resultado : Option Resultado
deriving DecidableEq

/-- The state at entry of the juego_sombras loop. -/
def estado_inicial (t : TableroSombras) : EstadoSombras :=
  { tablero := t, turno := "JUGADOR", pieza_seleccionada := none,
    corriendo := true, resultado := none }

/-- A pygame event as juego_sombras consumes it: window close, or a mouse
click already converted to grid coordinates. -/
inductive Evento where
  | salir
  | click_en (gx gy : Int)

/-- The event branch of the juego_sombras loop: QUIT stops the loop; a
click is handled only during the JUGADOR turn and drives the
select-or-move logic, applying a move when the clicked square is in the
legal-move set of the selected piece. -/
def procesar_evento (st : EstadoSombras) (e : Evento) : EstadoSombras :=
  match e with
  | Evento.salir => { st with corriendo := false }
  | Evento.click_en gx gy =>
    if st.turno = "JUGADOR" then
      if 0 ≤ gx ∧ gx < GRID_WIDTH ∧ 0 ≤ gy ∧ gy < GRID_HEIGHT then
        let pieza_en_casilla := obtener_pieza_en st.tablero gx gy
        match st.pieza_seleccionada with
        | none =>
          match pieza_en_casilla with
          | some pz =>
              if pz.team = "JUGADOR" then
                { st with pieza_seleccionada := some pz }
              else st
          | none => st
        | some sel =>
          if pieza_en_casilla = some sel then
            { st with pieza_seleccionada := none }
          else if (gx, gy) ∈ obtener_movimientos_validos sel (consulta st.tablero) then
            { st with tablero := mover_pieza st.tablero sel gx gy,
                      pieza_seleccionada := none,
                      turno := "ENEMIGO" }
          else
            match pieza_en_casilla with
            | some pz =>
                if pz.team = "JUGADOR" then
                  { st with pieza_seleccionada := some pz }
                else { st with pieza_seleccionada := none }
            | none => { st with pieza_seleccionada := none }
      else st
    else st

/-- Modelled from the spec: the outcome of the IASombras collaborator for
one enemy turn: the pieces its summon adds to the board (invocar_sombra,
30 percent probability, resolved externally) and its chosen move
(calcular_movimiento), if any. -/
structure DecisionIA where
  invocadas : List Pieza
  movimiento : Option (Pieza × Int × Int)

/-- Modelled from the spec: IASombras.invocar_sombra makes the summoned
pieces ordinary members of the live collection. -/
def invocar_sombra (t : TableroSombras) (nuevas : List Pieza) : TableroSombras :=
  { piezas := t.piezas ++ nuevas }

/-- The move-application step of the enemy turn in juego_sombras: when the
AI returned a move the board applies it, otherwise nothing happens. -/
def paso_movimiento_ia (t : TableroSombras) (mv : Option (Pieza × Int × Int)) :
    TableroSombras :=
  match mv with
  | some m => mover_pieza t m.1 m.2.1 m.2.2
  | none => t

/-- The enemy-turn block of the juego_sombras loop: when turno is ENEMIGO,
the summon runs, then the AI move (if any) is applied, then the turn goes
back to JUGADOR. -/
def bloque_ia (st : EstadoSombras) (dec : DecisionIA) : EstadoSombras :=
  if st.turno = "ENEMIGO" then
    { st with
        tablero := paso_movimiento_ia (invocar_sombra st.tablero dec.invocadas)
          dec.movimiento,
        turno := "JUGADOR" }
  else st

/-- The terminal check at the end of each juego_sombras frame: boss death
is checked first and wins ties; either condition stops the loop. -/
def verificar_terminal (st : EstadoSombras) : EstadoSombras :=
  if boss_muerto st.tablero then
    { st with resultado := some Resultado.victoria, corriendo := false }
  else if jugador_muerto st.tablero then
    { st with resultado := some Resultado.derrota, corriendo := false }
  else st

/-- One full iteration of the juego_sombras while loop: the frame events,
then the enemy-turn block, then the terminal check. -/
def cuadro (st : EstadoSombras) (eventos : List Evento) (dec : DecisionIA) :
    EstadoSombras :=
  verificar_terminal (bloque_ia (eventos.foldl procesar_evento st) dec)

/-- The juego_sombras while loop over a stream of frame inputs: a frame
runs only while corriendo holds. -/
def correr_juego (st : EstadoSombras) :
    List (List Evento × DecisionIA) → EstadoSombras
  | [] => st
  | entrada :: resto =>
    if st.corriendo then correr_juego (cuadro st entrada.1 entrada.2) resto
    else st

/-- The direction set of each sliding class (empty for the others). -/
def direcciones_de : Clase → List (Int × Int)
  | Clase.alfil => direcciones_alfil
  | Clase.torre => direcciones_torre
  | Clase.reina => direcciones_reina
  | _ => []

/-- A board query with no pieces at all. -/
def consulta_vacia : Consulta := fun _ _ => none

/-- A concrete player rook at the corner, used to exercise the raycast. -/
def pieza_torre_cx : Pieza :=
  { grid_x := 0, grid_y := 0, team := "JUGADOR", tipo := "TORRE",
    nombre := "Torre", es_boss := false, hp := 10, hp_max := 10,
    damage := 3, clase := Clase.torre, primer_movimiento := false }

/-- A concrete enemy piece standing at (0, 3). -/
def pieza_bloq_cx : Pieza :=
  { grid_x := 0, grid_y := 3, team := "ENEMIGO", tipo := "PEON",
    nombre := "Sombra", es_boss := false, hp := 5, hp_max := 5,
    damage := 2, clase := Clase.peon, primer_movimiento := true }

/-- A board query holding only the enemy piece at (0, 3). -/
def consulta_bloqueo : Consulta :=
  fun x y => if x = 0 ∧ y = 3 then some pieza_bloq_cx else none

/-- A concrete player knight at the corner. -/
def pieza_caballo_cx : Pieza :=
  { grid_x := 0, grid_y := 0, team := "JUGADOR", tipo := "CABALLO",
    nombre := "Caballo", es_boss := false, hp := 8, hp_max := 8,
    damage := 4, clase := Clase.caballo, primer_movimiento := false }

/-- A concrete player pawn at (4, 6) that has not moved yet (the scenario
of the specification). -/
def pieza_peon_cx : Pieza :=
  { grid_x := 4, grid_y := 6, team := "JUGADOR", tipo := "PEON",
    nombre := "Peon", es_boss := false, hp := 5, hp_max := 5,
    damage := 2, clase := Clase.peon, primer_movimiento := true }

/-- A concrete player king with 10 hp. -/
def pieza_rey_cx : Pieza :=
  { grid_x := 2, grid_y := 7, team := "JUGADOR", tipo := "REY",
    nombre := "Rey", es_boss := false, hp := 10, hp_max := 10,
    damage := 5, clase := Clase.rey, primer_movimiento := false }

/-- A concrete enemy Boss piece. -/
def pieza_boss_cx : Pieza :=
  { grid_x := 5, grid_y := 0, team := "ENEMIGO", tipo := "BOSS",
    nombre := "Rey Caido", es_boss := true, hp := 30, hp_max := 30,
    damage := 6, clase := Clase.rey, primer_movimiento := false }

/-- A board holding the player pawn only. -/
def tablero_peon_cx : TableroSombras := { piezas := [pieza_peon_cx] }

/-- A board holding a player king and the enemy Boss. -/
def tablero_lleno_cx : TableroSombras :=
  { piezas := [pieza_rey_cx, pieza_boss_cx] }

/-- A game state in the middle of a player turn with the pawn selected. -/
def estado_sel_cx : EstadoSombras :=
  { tablero := tablero_peon_cx, turno := "JUGADOR",
    pieza_seleccionada := some pieza_peon_cx, corriendo := true,
    resultado := none }

/-- A game state at the start of an enemy turn on the full board. -/
def estado_enemigo_cx : EstadoSombras :=
  { tablero := tablero_lleno_cx, turno := "ENEMIGO",
    pieza_seleccionada := none, corriendo := true, resultado := none }

/-- An enemy decision carrying no summon and no move. -/
def decision_nula_cx : DecisionIA := { invocadas := [], movimiento := none }

/-- Unfolding lemma: the raycast stops at an off-board square. -/
theorem direccion_desde_fuera (q : Consulta) (px py : Int) (team : String)
    (dx dy : Int) (fuel i : Nat)
    (hon : ¬ esta_en_tablero (px + dx * (i : Int)) (py + dy * (i : Int))) :
    movimientos_direccion_desde q px py team dx dy (fuel + 1) i = [] := by
  simp [movimientos_direccion_desde, hon]

/-- Unfolding lemma: the raycast adds an empty square and keeps going. -/
theorem direccion_desde_vacia (q : Consulta) (px py : Int) (team : String)
    (dx dy : Int) (fuel i : Nat)
    (hon : esta_en_tablero (px + dx * (i : Int)) (py + dy * (i : Int)))
    (hq : q (px + dx * (i : Int)) (py + dy * (i : Int)) = none) :
    movimientos_direccion_desde q px py team dx dy (fuel + 1) i =
      (px + dx * (i : Int), py + dy * (i : Int)) ::
        movimientos_direccion_desde q px py team dx dy fuel (i + 1) := by
  simp [movimientos_direccion_desde, hon, hq]

/-- Unfolding lemma: the raycast stops at an occupied square, keeping it
exactly when the occupant belongs to the other team. -/
theorem direccion_desde_ocupada (q : Consulta) (px py : Int) (team : String)
    (dx dy : Int) (fuel i : Nat) (o : Pieza)
    (hon : esta_en_tablero (px + dx * (i : Int)) (py + dy * (i : Int)))
    (hq : q (px + dx * (i : Int)) (py + dy * (i : Int)) = some o) :
    movimientos_direccion_desde q px py team dx dy (fuel + 1) i =
      if o.team ≠ team then [(px + dx * (i : Int), py + dy * (i : Int))]
      else [] := by
  simp [movimientos_direccion_desde, hon, hq]

/-- Membership characterization of the raycast: a square is produced
exactly when it is the j-th step for some j in range, it is on the board,
it is empty or enemy-occupied, and every earlier step was on the board and
empty. -/
theorem mem_direccion_iff (q : Consulta) (px py : Int) (team : String)
    (dx dy : Int) :
    ∀ (fuel i : Nat) (a b : Int),
      (a, b) ∈ movimientos_direccion_desde q px py team dx dy fuel i ↔
        ∃ j : Nat, i ≤ j ∧ j < i + fuel ∧
          a = px + dx * (j : Int) ∧ b = py + dy * (j : Int) ∧
          esta_en_tablero a b ∧
          (q a b = none ∨ ∃ o, q a b = some o ∧ o.team ≠ team) ∧
          ∀ k : Nat, i ≤ k → k < j →
            esta_en_tablero (px + dx * (k : Int)) (py + dy * (k : Int)) ∧
            q (px + dx * (k : Int)) (py + dy * (k : Int)) = none := by
  intro fuel
  induction fuel with
  | zero =>
    intro i a b
    constructor
    · intro h
      simp [movimientos_direccion_desde] at h
    · rintro ⟨j, hij, hlt, _⟩
      omega
  | succ fuel ih =>
    intro i a b
    by_cases hon : esta_en_tablero (px + dx * (i : Int)) (py + dy * (i : Int))
    · cases hq : q (px + dx * (i : Int)) (py + dy * (i : Int)) with
      | none =>
        rw [direccion_desde_vacia q px py team dx dy fuel i hon hq,
          List.mem_cons]
        constructor
        · rintro (heq | htail)
          · rw [Prod.mk.injEq] at heq
            refine ⟨i, le_rfl, by omega, heq.1, heq.2, ?_, ?_, ?_⟩
            · rw [heq.1, heq.2]; exact hon
            · left; rw [heq.1, heq.2]; exact hq
            · intro k h1 h2; omega
          · obtain ⟨j, hij, hlt, ha, hb, htab, hocc, hprev⟩ :=
              (ih (i + 1) a b).mp htail
            refine ⟨j, by omega, by omega, ha, hb, htab, hocc, ?_⟩
            intro k hik hkj
            rcases hik.eq_or_lt with rfl | hlt2
            · exact ⟨hon, hq⟩
            · exact hprev k (by omega) hkj
        · rintro ⟨j, hij, hlt, ha, hb, htab, hocc, hprev⟩
          rcases hij.eq_or_lt with rfl | hlt2
          · left; rw [Prod.mk.injEq]; exact ⟨ha, hb⟩
          · right
            exact (ih (i + 1) a b).mpr
              ⟨j, by omega, by omega, ha, hb, htab, hocc,
                fun k hik hkj => hprev k (by omega) hkj⟩
      | some o =>
        rw [direccion_desde_ocupada q px py team dx dy fuel i o hon hq]
        by_cases ht : o.team ≠ team
        · rw [if_pos ht, List.mem_singleton]
          constructor
          · intro heq
            rw [Prod.mk.injEq] at heq
            refine ⟨i, le_rfl, by omega, heq.1, heq.2, ?_, ?_, ?_⟩
            · rw [heq.1, heq.2]; exact hon
            · right; exact ⟨o, by rw [heq.1, heq.2]; exact hq, ht⟩
            · intro k h1 h2; omega
          · rintro ⟨j, hij, hlt, ha, hb, htab, hocc, hprev⟩
            rcases hij.eq_or_lt with rfl | hlt2
            · rw [Prod.mk.injEq]; exact ⟨ha, hb⟩
            · have hnone := (hprev i le_rfl hlt2).2
              rw [hq] at hnone
              simp at hnone
        · rw [if_neg ht]
          constructor
          · intro h; simp at h
          · rintro ⟨j, hij, hlt, ha, hb, htab, hocc, hprev⟩
            exfalso
            rcases hij.eq_or_lt with rfl | hlt2
            · subst ha; subst hb
              rcases hocc with hnone | ⟨o2, heq2, hne2⟩
              · rw [hq] at hnone; simp at hnone
              · rw [hq] at heq2
                injection heq2 with h3
                subst h3
                exact ht hne2
            · have hnone := (hprev i le_rfl hlt2).2
              rw [hq] at hnone
              simp at hnone
    · rw [direccion_desde_fuera q px py team dx dy fuel i hon]
      constructor
      · intro h; simp at h
      · rintro ⟨j, hij, hlt, ha, hb, htab, hocc, hprev⟩
        exfalso
        rcases hij.eq_or_lt with rfl | hlt2
        · subst ha; subst hb; exact hon htab
        · exact hon (hprev i le_rfl hlt2).1

/-- Soundness of the raycast: every produced square is on the board and is
not occupied by a piece of the same team. -/
theorem direccion_sound (p : Pieza) (q : Consulta) (dx dy : Int) (mp : Nat)
    (a b : Int) (h : (a, b) ∈ obtener_movimientos_direccion p q dx dy mp) :
    esta_en_tablero a b ∧ ∀ o, q a b = some o → o.team ≠ p.team := by
  obtain ⟨j, _, _, _, _, htab, hocc, _⟩ :=
    (mem_direccion_iff q p.grid_x p.grid_y p.team dx dy mp 1 a b).mp h
  refine ⟨htab, ?_⟩
  intro o ho
  rcases hocc with hnone | ⟨o2, heq, hne⟩
  · rw [ho] at hnone; simp at hnone
  · rw [ho] at heq
    injection heq with h3
    subst h3
    exact hne

/-- Every direction used by a sliding piece has components in -1..1 and is
not the null direction. -/
theorem componentes_direcciones :
    ∀ d ∈ direcciones_reina,
      (d.1 = -1 ∨ d.1 = 0 ∨ d.1 = 1) ∧ (d.2 = -1 ∨ d.2 = 0 ∨ d.2 = 1) ∧
        ¬(d.1 = 0 ∧ d.2 = 0) := by
  decide

/-- The bishop directions are queen directions. -/
theorem alfil_sub_reina : ∀ d ∈ direcciones_alfil, d ∈ direcciones_reina := by
  decide

/-- The rook directions are queen directions. -/
theorem torre_sub_reina : ∀ d ∈ direcciones_torre, d ∈ direcciones_reina := by
  decide

/-- Convexity of the board along a unit direction: when the start and the
k-th step are on the board, so is every intermediate step. -/
theorem entre_tablero (x y dx dy : Int)
    (hdx : dx = -1 ∨ dx = 0 ∨ dx = 1) (hdy : dy = -1 ∨ dy = 0 ∨ dy = 1)
    (j k : Nat) (hjk : j ≤ k)
    (h0 : esta_en_tablero x y)
    (hk : esta_en_tablero (x + dx * (k : Int)) (y + dy * (k : Int))) :
    esta_en_tablero (x + dx * (j : Int)) (y + dy * (j : Int)) := by
  rcases hdx with rfl | rfl | rfl <;> rcases hdy with rfl | rfl | rfl <;>
    simp only [esta_en_tablero, GRID_WIDTH, GRID_HEIGHT] at h0 hk ⊢ <;>
    omega

/-- A blocked on-board step along a nonzero unit direction is at distance
at most 7 from an on-board start. -/
theorem paso_acotado (x y dx dy : Int)
    (hdx : dx = -1 ∨ dx = 0 ∨ dx = 1) (hdy : dy = -1 ∨ dy = 0 ∨ dy = 1)
    (hne : ¬(dx = 0 ∧ dy = 0)) (k : Nat)
    (h0 : esta_en_tablero x y)
    (hk : esta_en_tablero (x + dx * (k : Int)) (y + dy * (k : Int))) :
    k < 8 := by
  rcases hdx with rfl | rfl | rfl <;> rcases hdy with rfl | rfl | rfl <;>
    simp only [esta_en_tablero, GRID_WIDTH, GRID_HEIGHT] at h0 hk <;>
    omega

/-- Distinct rays from the same origin never meet: two nonzero unit
directions that agree on some positive step agree as directions and
steps. -/
theorem rayos_separados (d1 d2 e1 e2 : Int)
    (hd1 : d1 = -1 ∨ d1 = 0 ∨ d1 = 1) (hd2 : d2 = -1 ∨ d2 = 0 ∨ d2 = 1)
    (he1 : e1 = -1 ∨ e1 = 0 ∨ e1 = 1) (he2 : e2 = -1 ∨ e2 = 0 ∨ e2 = 1)
    (hdne : ¬(d1 = 0 ∧ d2 = 0)) (hene : ¬(e1 = 0 ∧ e2 = 0))
    (j k : Nat) (hj : 1 ≤ j) (hk : 1 ≤ k)
    (h1 : d1 * (j : Int) = e1 * (k : Int))
    (h2 : d2 * (j : Int) = e2 * (k : Int)) :
    d1 = e1 ∧ d2 = e2 ∧ j = k := by
  rcases hd1 with rfl | rfl | rfl <;> rcases hd2 with rfl | rfl | rfl <;>
    rcases he1 with rfl | rfl | rfl <;> rcases he2 with rfl | rfl | rfl <;>
    exact ⟨by omega, by omega, by omega⟩

/-- Blocking behaviour of a sliding generator built from a list of queen
directions: with the nearest occupied square of a ray at distance k, every
earlier square of the ray is produced, the blocked square is produced
exactly for an enemy occupant, and no later square of the ray is ever
produced. -/
theorem bloqueo_en_flatMap (p : Pieza) (q : Consulta)
    (dirs : List (Int × Int)) (hsub : ∀ d ∈ dirs, d ∈ direcciones_reina)
    (d1 d2 : Int) (hd : (d1, d2) ∈ dirs) (k : Nat) (hk : 1 ≤ k)
    (hpos : esta_en_tablero p.grid_x p.grid_y)
    (hktab : esta_en_tablero (p.grid_x + d1 * (k : Int))
      (p.grid_y + d2 * (k : Int)))
    (bloqueadora : Pieza)
    (hocc : q (p.grid_x + d1 * (k : Int)) (p.grid_y + d2 * (k : Int)) =
      some bloqueadora)
    (hlibres : ∀ j : Nat, j < k → 1 ≤ j →
      q (p.grid_x + d1 * (j : Int)) (p.grid_y + d2 * (j : Int)) = none) :
    (∀ j : Nat, 1 ≤ j → j < k →
      (p.grid_x + d1 * (j : Int), p.grid_y + d2 * (j : Int)) ∈
        dirs.flatMap (fun d => obtener_movimientos_direccion p q d.1 d.2 8)) ∧
    ((p.grid_x + d1 * (k : Int), p.grid_y + d2 * (k : Int)) ∈
        dirs.flatMap (fun d => obtener_movimientos_direccion p q d.1 d.2 8) ↔
      bloqueadora.team ≠ p.team) ∧
    (∀ j : Nat, k < j →
      (p.grid_x + d1 * (j : Int), p.grid_y + d2 * (j : Int)) ∉
        dirs.flatMap (fun d => obtener_movimientos_direccion p q d.1 d.2 8)) := by
  have hdrey : (d1, d2) ∈ direcciones_reina := hsub _ hd
  obtain ⟨hcd1, hcd2, hcne⟩ := componentes_direcciones (d1, d2) hdrey
  have hk8 : k < 8 := paso_acotado p.grid_x p.grid_y d1 d2 hcd1 hcd2 hcne k hpos hktab
  refine ⟨?_, ⟨?_, ?_⟩, ?_⟩
  · intro j hj1 hjk
    apply List.mem_flatMap.mpr
    refine ⟨(d1, d2), hd, ?_⟩
    apply (mem_direccion_iff q p.grid_x p.grid_y p.team d1 d2 8 1 _ _).mpr
    refine ⟨j, hj1, by omega, rfl, rfl, ?_, Or.inl (hlibres j hjk hj1), ?_⟩
    · exact entre_tablero _ _ _ _ hcd1 hcd2 j k (by omega) hpos hktab
    · intro m h1m hmj
      exact ⟨entre_tablero _ _ _ _ hcd1 hcd2 m k (by omega) hpos hktab,
        hlibres m (by omega) h1m⟩
  · intro hmem
    obtain ⟨e, he, hraye⟩ := List.mem_flatMap.mp hmem
    obtain ⟨j, hj1, hj9, ha, hb, htab, hoccd, hprev⟩ :=
      (mem_direccion_iff q p.grid_x p.grid_y p.team e.1 e.2 8 1 _ _).mp hraye
    have h1 : e.1 * (j : Int) = d1 * (k : Int) := (add_left_cancel ha).symm
    have h2 : e.2 * (j : Int) = d2 * (k : Int) := (add_left_cancel hb).symm
    have herey : (e.1, e.2) ∈ direcciones_reina := by
      rw [Prod.mk.eta]; exact hsub e he
    obtain ⟨hce1, hce2, hcene⟩ := componentes_direcciones (e.1, e.2) herey
    obtain ⟨he1, he2, hjk⟩ :=
      rayos_separados e.1 e.2 d1 d2 hce1 hce2 hcd1 hcd2 hcene hcne j k hj1
        hk h1 h2
    rcases hoccd with hnone | ⟨o2, heq2, hne2⟩
    · rw [hocc] at hnone; simp at hnone
    · rw [hocc] at heq2
      injection heq2 with h3
      subst h3
      exact hne2
  · intro hne
    apply List.mem_flatMap.mpr
    refine ⟨(d1, d2), hd, ?_⟩
    apply (mem_direccion_iff q p.grid_x p.grid_y p.team d1 d2 8 1 _ _).mpr
    refine ⟨k, hk, by omega, rfl, rfl, hktab,
      Or.inr ⟨bloqueadora, hocc, hne⟩, ?_⟩
    intro m h1m hmk
    exact ⟨entre_tablero _ _ _ _ hcd1 hcd2 m k (by omega) hpos hktab,
      hlibres m (by omega) h1m⟩
  · intro j hkj hmem
    obtain ⟨e, he, hraye⟩ := List.mem_flatMap.mp hmem
    obtain ⟨j2, hj21, hj29, ha, hb, htab, hoccd, hprev⟩ :=
      (mem_direccion_iff q p.grid_x p.grid_y p.team e.1 e.2 8 1 _ _).mp hraye
    have h1 : e.1 * (j2 : Int) = d1 * (j : Int) := (add_left_cancel ha).symm
    have h2 : e.2 * (j2 : Int) = d2 * (j : Int) := (add_left_cancel hb).symm
    have herey : (e.1, e.2) ∈ direcciones_reina := by
      rw [Prod.mk.eta]; exact hsub e he
    obtain ⟨hce1, hce2, hcene⟩ := componentes_direcciones (e.1, e.2) herey
    obtain ⟨he1, he2, hj2j⟩ :=
      rayos_separados e.1 e.2 d1 d2 hce1 hce2 hcd1 hcd2 hcene hcne j2 j
        hj21 (by omega) h1 h2
    have hprevk := (hprev k hk (by omega)).2
    rw [he1, he2] at hprevk
    rw [hocc] at hprevk
    simp at hprevk

/-- The queen directions include themselves. -/
theorem reina_sub_reina : ∀ d ∈ direcciones_reina, d ∈ direcciones_reina :=
  fun _ hd => hd

/-- C3: for every sliding piece (Bishop, Rook, Queen), direction of its
direction set and board, with the nearest occupied square of the ray at
distance k: every empty square at distance below k is returned, the square
at distance k is returned exactly when its occupant is an enemy, and no
square of the ray beyond k is returned. -/
theorem c3_bloqueo_deslizante (p : Pieza) (q : Consulta)
    (hdesl : p.clase = Clase.alfil ∨ p.clase = Clase.torre ∨
      p.clase = Clase.reina)
    (d1 d2 : Int) (hd : (d1, d2) ∈ direcciones_de p.clase)
    (k : Nat) (hk : 1 ≤ k)
    (hpos : esta_en_tablero p.grid_x p.grid_y)
    (hktab : esta_en_tablero (p.grid_x + d1 * (k : Int))
      (p.grid_y + d2 * (k : Int)))
    (bloqueadora : Pieza)
    (hocc : q (p.grid_x + d1 * (k : Int)) (p.grid_y + d2 * (k : Int)) =
      some bloqueadora)
    (hlibres : ∀ j : Nat, j < k → 1 ≤ j →
      q (p.grid_x + d1 * (j : Int)) (p.grid_y + d2 * (j : Int)) = none) :
    (∀ j : Nat, 1 ≤ j → j < k →
      (p.grid_x + d1 * (j : Int), p.grid_y + d2 * (j : Int)) ∈
        obtener_movimientos_validos p q) ∧
    ((p.grid_x + d1 * (k : Int), p.grid_y + d2 * (k : Int)) ∈
        obtener_movimientos_validos p q ↔ bloqueadora.team ≠ p.team) ∧
    (∀ j : Nat, k < j →
      (p.grid_x + d1 * (j : Int), p.grid_y + d2 * (j : Int)) ∉
        obtener_movimientos_validos p q) := by
  rcases hdesl with hc | hc | hc
  · rw [hc] at hd
    simp only [direcciones_de] at hd
    have h := bloqueo_en_flatMap p q direcciones_alfil alfil_sub_reina d1 d2
      hd k hk hpos hktab bloqueadora hocc hlibres
    simpa only [obtener_movimientos_validos, hc, movimientos_alfil] using h
  · rw [hc] at hd
    simp only [direcciones_de] at hd
    have h := bloqueo_en_flatMap p q direcciones_torre torre_sub_reina d1 d2
      hd k hk hpos hktab bloqueadora hocc hlibres
    simpa only [obtener_movimientos_validos, hc, movimientos_torre] using h
  · rw [hc] at hd
    simp only [direcciones_de] at hd
    have h := bloqueo_en_flatMap p q direcciones_reina reina_sub_reina d1 d2
      hd k hk hpos hktab bloqueadora hocc hlibres
    simpa only [obtener_movimientos_validos, hc, movimientos_reina] using h

/-- Witness for C3: the rook at (0, 0) with an enemy at (0, 3) and nothing
between them reaches (0, 3) because the blocker is an enemy. -/
theorem c3_witness :
    (pieza_torre_cx.grid_x + 0 * ((3 : Nat) : Int),
      pieza_torre_cx.grid_y + 1 * ((3 : Nat) : Int)) ∈
        obtener_movimientos_validos pieza_torre_cx consulta_bloqueo ↔
      pieza_bloq_cx.team ≠ pieza_torre_cx.team :=
  (c3_bloqueo_deslizante pieza_torre_cx consulta_bloqueo
    (Or.inr (Or.inl rfl)) 0 1 (by decide) 3 (by decide) (by decide)
    (by decide) pieza_bloq_cx (by decide) (by decide)).2.1

/-- Truncation of the raycast: when the last probed step lands off the
board, one fewer step produces the same list. -/
theorem direccion_desde_corta (q : Consulta) (px py : Int) (team : String)
    (dx dy : Int) :
    ∀ (n i : Nat),
      ¬ esta_en_tablero (px + dx * ((i + n : Nat) : Int))
        (py + dy * ((i + n : Nat) : Int)) →
      movimientos_direccion_desde q px py team dx dy (n + 1) i =
        movimientos_direccion_desde q px py team dx dy n i := by
  intro n
  induction n with
  | zero =>
    intro i hoff
    simp only [Nat.add_zero] at hoff
    rw [direccion_desde_fuera q px py team dx dy 0 i hoff]
    rfl
  | succ n ih =>
    intro i hoff
    by_cases hon : esta_en_tablero (px + dx * (i : Int)) (py + dy * (i : Int))
    · cases hq : q (px + dx * (i : Int)) (py + dy * (i : Int)) with
      | none =>
        rw [direccion_desde_vacia q px py team dx dy (n + 1) i hon hq,
          direccion_desde_vacia q px py team dx dy n i hon hq]
        congr 1
        apply ih (i + 1)
        have harith : (i + 1) + n = i + (n + 1) := by omega
        rw [harith]
        exact hoff
      | some o =>
        rw [direccion_desde_ocupada q px py team dx dy (n + 1) i o hon hq,
          direccion_desde_ocupada q px py team dx dy n i o hon hq]
    · rw [direccion_desde_fuera q px py team dx dy (n + 1) i hon,
        direccion_desde_fuera q px py team dx dy n i hon]

/-- Counterexample for C10 as stated: with the degenerate direction (0, 0),
allowed by the claim, the default 8-step raycast differs from the 7-step
raycast on a board whose query is empty everywhere, even for a piece
standing inside the board. -/
theorem c10_counterexample :
    obtener_movimientos_direccion pieza_torre_cx consulta_vacia 0 0 8 ≠
      obtener_movimientos_direccion pieza_torre_cx consulta_vacia 0 0 7 := by
  decide

/-- C10 amended: for every piece inside the board, every direction with
components in -1..1 other than (0, 0), and every board, the raycast with
the default max_pasos = 8 equals the raycast with max_pasos = 7. -/
theorem c10_max_pasos (p : Pieza) (q : Consulta) (d1 d2 : Int)
    (hd1 : d1 = -1 ∨ d1 = 0 ∨ d1 = 1) (hd2 : d2 = -1 ∨ d2 = 0 ∨ d2 = 1)
    (hne : ¬(d1 = 0 ∧ d2 = 0))
    (hpos : esta_en_tablero p.grid_x p.grid_y) :
    obtener_movimientos_direccion p q d1 d2 8 =
      obtener_movimientos_direccion p q d1 d2 7 := by
  apply direccion_desde_corta q p.grid_x p.grid_y p.team d1 d2 7 1
  rw [show ((1 + 7 : Nat) : Int) = 8 by norm_num]
  rcases hd1 with rfl | rfl | rfl <;> rcases hd2 with rfl | rfl | rfl <;>
    simp only [esta_en_tablero, GRID_WIDTH, GRID_HEIGHT] at hpos ⊢ <;>
    omega

/-- Witness for the amended C10: for the rook at (0, 0), direction (0, 1),
the two raycasts agree on the blocked board. -/
theorem c10_witness :
    obtener_movimientos_direccion pieza_torre_cx consulta_bloqueo 0 1 8 =
      obtener_movimientos_direccion pieza_torre_cx consulta_bloqueo 0 1 7 :=
  c10_max_pasos pieza_torre_cx consulta_bloqueo 0 1 (Or.inr (Or.inl rfl))
    (Or.inr (Or.inr rfl)) (by decide) (by decide)

/-- Acceptance test of the Caballo and Rey generators, unfolded. -/
theorem casilla_accesible_iff (p : Pieza) (q : Consulta) (c1 c2 : Int) :
    casilla_accesible p q (c1, c2) = true ↔
      esta_en_tablero c1 c2 ∧
        (q c1 c2 = none ∨ ∃ pz, q c1 c2 = some pz ∧ pz.team ≠ p.team) := by
  cases hq : q c1 c2 with
  | none => simp [casilla_accesible, hq]
  | some pz => simp [casilla_accesible, hq]

/-- Soundness of an offset generator built by filtering accessible squares:
every kept square is on the board and free of same-team pieces. -/
theorem filtro_sound (p : Pieza) (q : Consulta) (l : List (Int × Int))
    (a b : Int) (h : (a, b) ∈ l.filter (casilla_accesible p q)) :
    esta_en_tablero a b ∧ ∀ o, q a b = some o → o.team ≠ p.team := by
  obtain ⟨hmem, hacc⟩ := List.mem_filter.mp h
  obtain ⟨htab, hocc⟩ := (casilla_accesible_iff p q a b).mp hacc
  refine ⟨htab, ?_⟩
  intro o ho
  rcases hocc with hnone | ⟨pz, heq, hne⟩
  · rw [ho] at hnone; simp at hnone
  · rw [ho] at heq
    injection heq with h3
    subst h3
    exact hne

/-- Membership characterization of the pawn generator body for a fixed
direccion: a square is produced exactly when it is the empty one-step
square, the empty two-step square still allowed by primer_movimiento with
an empty one-step square, or an enemy-occupied forward diagonal. -/
theorem mem_peon_dir_iff (p : Pieza) (q : Consulta) (D a b : Int) :
    (a, b) ∈ movimientos_peon_dir p q D ↔
      (a = p.grid_x ∧ b = p.grid_y + D ∧
        esta_en_tablero a b ∧ q a b = none) ∨
      (a = p.grid_x ∧ b = p.grid_y + D * 2 ∧
        p.primer_movimiento = true ∧
        esta_en_tablero p.grid_x (p.grid_y + D) ∧
        q p.grid_x (p.grid_y + D) = none ∧
        esta_en_tablero a b ∧ q a b = none) ∨
      (∃ dx2 : Int, (dx2 = -1 ∨ dx2 = 1) ∧ a = p.grid_x + dx2 ∧
        b = p.grid_y + D ∧
        esta_en_tablero a b ∧
        ∃ o, q a b = some o ∧ o.team ≠ p.team) := by
  simp only [movimientos_peon_dir]
  constructor
  · intro h
    rcases List.mem_append.mp h with hf | hdg
    · split_ifs at hf with hc1 hc2
      · rcases List.mem_cons.mp hf with heq | hf2
        · left
          rw [Prod.mk.injEq] at heq
          exact ⟨heq.1, heq.2, by rw [heq.1, heq.2]; exact hc1.1,
            by rw [heq.1, heq.2]; exact hc1.2⟩
        · right; left
          rw [List.mem_singleton, Prod.mk.injEq] at hf2
          exact ⟨hf2.1, hf2.2, hc2.1, hc1.1, hc1.2,
            by rw [hf2.1, hf2.2]; exact hc2.2.1,
            by rw [hf2.1, hf2.2]; exact hc2.2.2⟩
      · rw [List.mem_singleton, Prod.mk.injEq] at hf
        left
        exact ⟨hf.1, hf.2, by rw [hf.1, hf.2]; exact hc1.1,
          by rw [hf.1, hf.2]; exact hc1.2⟩
      · simp at hf
    · obtain ⟨dx2, hdx2, heq⟩ := List.mem_filterMap.mp hdg
      simp only [List.mem_cons, List.mem_singleton, List.not_mem_nil,
        or_false] at hdx2
      right; right
      split_ifs at heq with htab
      · cases hq : q (p.grid_x + dx2) (p.grid_y + D) with
        | none => rw [hq] at heq; simp at heq
        | some o =>
          rw [hq] at heq
          dsimp only at heq
          split_ifs at heq with hne
          · injection heq with h2
            rw [Prod.mk.injEq] at h2
            refine ⟨dx2, hdx2, h2.1.symm, h2.2.symm, ?_, o, ?_, hne⟩
            · rw [← h2.1, ← h2.2]; exact htab
            · rw [← h2.1, ← h2.2]; exact hq
  · rintro (⟨ha, hb, htab, hq⟩ | ⟨ha, hb, hpm, htab1, hq1, htab2, hq2⟩ |
      ⟨dx2, hdx2, ha, hb, htab, o, hq, hne⟩)
    · apply List.mem_append_left
      subst ha; subst hb
      rw [if_pos ⟨htab, hq⟩]
      split_ifs with hc2
      · exact List.mem_cons_self _ _
      · exact List.mem_cons_self _ _
    · apply List.mem_append_left
      subst ha; subst hb
      rw [if_pos ⟨htab1, hq1⟩, if_pos ⟨hpm, htab2, hq2⟩]
      exact List.mem_cons_of_mem _ (List.mem_cons_self _ _)
    · apply List.mem_append_right
      apply List.mem_filterMap.mpr
      refine ⟨dx2, ?_, ?_⟩
      · rcases hdx2 with rfl | rfl <;> simp
      · subst ha; subst hb
        simp [htab, hq, hne]

/-- Membership characterization of the pawn generator itself, with the
per-team direccion. -/
theorem mem_peon_iff (p : Pieza) (q : Consulta) (a b : Int) :
    (a, b) ∈ movimientos_peon p q ↔
      (a = p.grid_x ∧
        b = p.grid_y + (if p.team = TEAM_PLAYER then -1 else 1) ∧
        esta_en_tablero a b ∧ q a b = none) ∨
      (a = p.grid_x ∧
        b = p.grid_y + (if p.team = TEAM_PLAYER then -1 else 1) * 2 ∧
        p.primer_movimiento = true ∧
        esta_en_tablero p.grid_x
          (p.grid_y + (if p.team = TEAM_PLAYER then -1 else 1)) ∧
        q p.grid_x (p.grid_y + (if p.team = TEAM_PLAYER then -1 else 1)) =
          none ∧
        esta_en_tablero a b ∧ q a b = none) ∨
      (∃ dx2 : Int, (dx2 = -1 ∨ dx2 = 1) ∧ a = p.grid_x + dx2 ∧
        b = p.grid_y + (if p.team = TEAM_PLAYER then -1 else 1) ∧
        esta_en_tablero a b ∧
        ∃ o, q a b = some o ∧ o.team ≠ p.team) := by
  rw [movimientos_peon]
  exact mem_peon_dir_iff p q (if p.team = TEAM_PLAYER then -1 else 1) a b

/-- Soundness of the pawn generator. -/
theorem peon_sound (p : Pieza) (q : Consulta) (a b : Int)
    (h : (a, b) ∈ movimientos_peon p q) :
    esta_en_tablero a b ∧ ∀ o, q a b = some o → o.team ≠ p.team := by
  rcases (mem_peon_iff p q a b).mp h with
    ⟨_, _, htab, hq⟩ | ⟨_, _, _, _, _, htab, hq⟩ |
    ⟨_, _, _, _, htab, o, hq, hne⟩
  · refine ⟨htab, ?_⟩
    intro o2 ho
    rw [ho] at hq; simp at hq
  · refine ⟨htab, ?_⟩
    intro o2 ho
    rw [ho] at hq; simp at hq
  · refine ⟨htab, ?_⟩
    intro o2 ho
    rw [ho] at hq
    injection hq with h3
    subst h3
    exact hne

/-- C1: every coordinate produced by the movement generator of any piece,
on any board, is on the board and is not occupied by a piece of the same
team as the moving piece. -/
theorem c1_generador_seguro (p : Pieza) (q : Consulta) (a b : Int)
    (h : (a, b) ∈ obtener_movimientos_validos p q) :
    esta_en_tablero a b ∧ ∀ o, q a b = some o → o.team ≠ p.team := by
  cases hc : p.clase <;> simp only [obtener_movimientos_validos, hc] at h
  case base => simp at h
  case peon => exact peon_sound p q a b h
  case caballo =>
    exact filtro_sound p q _ a b h
  case alfil =>
    obtain ⟨d, hd, hray⟩ := List.mem_flatMap.mp h
    exact direccion_sound p q d.1 d.2 8 a b hray
  case torre =>
    obtain ⟨d, hd, hray⟩ := List.mem_flatMap.mp h
    exact direccion_sound p q d.1 d.2 8 a b hray
  case reina =>
    obtain ⟨d, hd, hray⟩ := List.mem_flatMap.mp h
    exact direccion_sound p q d.1 d.2 8 a b hray
  case rey =>
    exact filtro_sound p q _ a b h

/-- Witness for C1: the knight at the corner of an empty board produces
(1, 2), which is on the board and free of same-team pieces. -/
theorem c1_witness :
    esta_en_tablero 1 2 ∧
      ∀ o, consulta_vacia 1 2 = some o → o.team ≠ pieza_caballo_cx.team :=
  c1_generador_seguro pieza_caballo_cx consulta_vacia 1 2 (by decide)

/-- C9: the knight generator yields at most 8 squares, each one a fixed
knight offset of the position, kept exactly when on the board and empty or
enemy-occupied; and two boards that agree on the 8 offset targets give
identical knight move lists. -/
theorem c9_caballo (p : Pieza) (q q2 : Consulta) :
    (movimientos_caballo p q).length ≤ 8 ∧
    (∀ m1 m2 : Int, (m1, m2) ∈ movimientos_caballo p q →
      ∃ o ∈ offsets_caballo, (m1, m2) = (p.grid_x + o.1, p.grid_y + o.2) ∧
        esta_en_tablero m1 m2 ∧
        (q m1 m2 = none ∨ ∃ pz, q m1 m2 = some pz ∧ pz.team ≠ p.team)) ∧
    (∀ o ∈ offsets_caballo,
      esta_en_tablero (p.grid_x + o.1) (p.grid_y + o.2) →
      (q (p.grid_x + o.1) (p.grid_y + o.2) = none ∨
        ∃ pz, q (p.grid_x + o.1) (p.grid_y + o.2) = some pz ∧
          pz.team ≠ p.team) →
      (p.grid_x + o.1, p.grid_y + o.2) ∈ movimientos_caballo p q) ∧
    ((∀ o ∈ offsets_caballo,
        q (p.grid_x + o.1) (p.grid_y + o.2) =
          q2 (p.grid_x + o.1) (p.grid_y + o.2)) →
      movimientos_caballo p q = movimientos_caballo p q2) := by
  refine ⟨?_, ?_, ?_, ?_⟩
  · rw [movimientos_caballo]
    exact le_trans (List.length_filter_le _ _) (by simp [offsets_caballo])
  · intro m1 m2 hm
    rw [movimientos_caballo] at hm
    obtain ⟨hmem, hacc⟩ := List.mem_filter.mp hm
    obtain ⟨o, ho, heq⟩ := List.mem_map.mp hmem
    obtain ⟨htab, hocc⟩ := (casilla_accesible_iff p q m1 m2).mp hacc
    exact ⟨o, ho, heq.symm, htab, hocc⟩
  · intro o ho htab hocc
    rw [movimientos_caballo]
    exact List.mem_filter.mpr ⟨List.mem_map.mpr ⟨o, ho, rfl⟩,
      (casilla_accesible_iff p q _ _).mpr ⟨htab, hocc⟩⟩
  · intro hagree
    rw [movimientos_caballo, movimientos_caballo]
    apply List.filter_congr
    intro c hc
    obtain ⟨o, ho, rfl⟩ := List.mem_map.mp hc
    simp only [casilla_accesible]
    rw [hagree o ho]

/-- Witness for C9: the corner knight produces at most 8 squares, and a
blocker at (0, 3), which is not a knight target, leaves its move list
unchanged. -/
theorem c9_witness :
    (movimientos_caballo pieza_caballo_cx consulta_vacia).length ≤ 8 ∧
    movimientos_caballo pieza_caballo_cx consulta_vacia =
      movimientos_caballo pieza_caballo_cx consulta_bloqueo :=
  ⟨(c9_caballo pieza_caballo_cx consulta_vacia consulta_bloqueo).1,
   (c9_caballo pieza_caballo_cx consulta_vacia consulta_bloqueo).2.2.2
     (by decide)⟩

/-- C5: the pawn generator only advances in the per-team direction, offers
the one-step square only when it is empty, offers the two-step square only
when primer_movimiento still allows it and both forward squares are empty,
and offers a forward diagonal only when it is on the board and
enemy-occupied. -/
theorem c5_peon_movimientos (p : Pieza) (q : Consulta) (a b : Int) :
    ((a, b) ∈ movimientos_peon p q →
      b = p.grid_y + (if p.team = TEAM_PLAYER then -1 else 1) ∨
      b = p.grid_y + (if p.team = TEAM_PLAYER then -1 else 1) * 2) ∧
    ((p.grid_x, p.grid_y + (if p.team = TEAM_PLAYER then -1 else 1)) ∈
        movimientos_peon p q →
      q p.grid_x (p.grid_y + (if p.team = TEAM_PLAYER then -1 else 1)) =
        none) ∧
    ((p.grid_x, p.grid_y + (if p.team = TEAM_PLAYER then -1 else 1) * 2) ∈
        movimientos_peon p q →
      p.primer_movimiento = true ∧
      q p.grid_x (p.grid_y + (if p.team = TEAM_PLAYER then -1 else 1)) =
        none ∧
      q p.grid_x (p.grid_y + (if p.team = TEAM_PLAYER then -1 else 1) * 2) =
        none) ∧
    (∀ dx2 : Int, dx2 = -1 ∨ dx2 = 1 →
      (p.grid_x + dx2,
        p.grid_y + (if p.team = TEAM_PLAYER then -1 else 1)) ∈
          movimientos_peon p q →
      esta_en_tablero (p.grid_x + dx2)
        (p.grid_y + (if p.team = TEAM_PLAYER then -1 else 1)) ∧
      ∃ o, q (p.grid_x + dx2)
          (p.grid_y + (if p.team = TEAM_PLAYER then -1 else 1)) = some o ∧
        o.team ≠ p.team) := by
  have hD : (if p.team = TEAM_PLAYER then -1 else (1 : Int)) = -1 ∨
      (if p.team = TEAM_PLAYER then -1 else (1 : Int)) = 1 := by
    split_ifs <;> simp
  rw [movimientos_peon]
  generalize (if p.team = TEAM_PLAYER then -1 else (1 : Int)) = D at hD ⊢
  refine ⟨?_, ?_, ?_, ?_⟩
  · intro h
    rcases (mem_peon_dir_iff p q D a b).mp h with
      ⟨_, hb, _⟩ | ⟨_, hb, _⟩ | ⟨_, _, _, hb, _⟩
    · exact Or.inl hb
    · exact Or.inr hb
    · exact Or.inl hb
  · intro h
    rcases (mem_peon_dir_iff p q D _ _).mp h with
      ⟨_, _, _, hq⟩ | ⟨_, hb, _⟩ | ⟨dx2, hdx2, ha, _⟩
    · exact hq
    · exfalso; rcases hD with rfl | rfl <;> omega
    · exfalso; rcases hdx2 with rfl | rfl <;> omega
  · intro h
    rcases (mem_peon_dir_iff p q D _ _).mp h with
      ⟨_, hb, _⟩ | ⟨_, _, hpm, _, hq1, _, hq2⟩ | ⟨dx2, hdx2, ha, _⟩
    · exfalso; rcases hD with rfl | rfl <;> omega
    · exact ⟨hpm, hq1, hq2⟩
    · exfalso; rcases hdx2 with rfl | rfl <;> omega
  · intro dx2 hdx2 h
    rcases (mem_peon_dir_iff p q D _ _).mp h with
      ⟨ha, _, _⟩ | ⟨ha, _, _⟩ | ⟨dx3, hdx3, ha, hb, htab, o, hq, hne⟩
    · exfalso; rcases hdx2 with rfl | rfl <;> omega
    · exfalso; rcases hdx2 with rfl | rfl <;> omega
    · exact ⟨htab, o, hq, hne⟩

/-- Witness for C5: the pawn at (4, 6) of the specification scenario, on
an empty board, is offered the two-step square, so the flag is set and
both forward squares are empty. -/
theorem c5_witness :
    pieza_peon_cx.primer_movimiento = true ∧
    consulta_vacia pieza_peon_cx.grid_x (pieza_peon_cx.grid_y +
      (if pieza_peon_cx.team = TEAM_PLAYER then -1 else 1)) = none ∧
    consulta_vacia pieza_peon_cx.grid_x (pieza_peon_cx.grid_y +
      (if pieza_peon_cx.team = TEAM_PLAYER then -1 else 1) * 2) = none :=
  (c5_peon_movimientos pieza_peon_cx consulta_vacia 4 5).2.2.1 (by decide)

/-- Outcome of recibir_damage when the damage reaches the current hp. -/
theorem recibir_damage_muere (p : Pieza) (d : Int) (h : p.hp ≤ d) :
    recibir_damage p d = ({ p with hp := p.hp - d }, true) := by
  simp only [recibir_damage]
  split_ifs with h0
  · rfl
  · exfalso
    simp only at h0
    omega

/-- Outcome of recibir_damage when the damage is below the current hp. -/
theorem recibir_damage_vive (p : Pieza) (d : Int) (h : d < p.hp) :
    recibir_damage p d = ({ p with hp := p.hp - d }, false) := by
  simp only [recibir_damage]
  split_ifs with h0
  · exfalso
    simp only at h0
    omega
  · rfl

/-- C4: recibir_damage with damage at least the current hp removes the
piece from the live collection and reports death; with less damage the
piece stays, with hp reduced by exactly the damage, and death is not
reported. -/
theorem c4_recibir_damage (vivos : List Pieza) (p : Pieza) (d : Int) :
    (p.hp ≤ d →
      (recibir_damage_vivos vivos p d).2 = true ∧
      ∀ pz ∈ (recibir_damage_vivos vivos p d).1,
        ¬(pz.grid_x = p.grid_x ∧ pz.grid_y = p.grid_y)) ∧
    (d < p.hp →
      (recibir_damage_vivos vivos p d).2 = false ∧
      (p ∈ vivos →
        { p with hp := p.hp - d } ∈ (recibir_damage_vivos vivos p d).1)) := by
  constructor
  · intro h
    have hr := recibir_damage_muere p d h
    simp only [recibir_damage_vivos, hr]
    refine ⟨rfl, ?_⟩
    intro pz hpz
    have h2 := (List.mem_filter.mp hpz).2
    simp only [Bool.not_eq_true', decide_eq_false_iff_not] at h2
    exact h2
  · intro h
    have hr := recibir_damage_vive p d h
    simp only [recibir_damage_vivos, hr]
    refine ⟨rfl, ?_⟩
    intro hp
    apply List.mem_map.mpr
    refine ⟨p, hp, ?_⟩
    rw [if_pos ⟨rfl, rfl⟩]

/-- Witness for C4: a king with 10 hp dies to 12 damage and its square is
emptied; with 3 damage it stays at 7 hp. -/
theorem c4_witness :
    (recibir_damage_vivos [pieza_rey_cx] pieza_rey_cx 12).2 = true ∧
    (recibir_damage_vivos [pieza_rey_cx] pieza_rey_cx 3).2 = false ∧
    { pieza_rey_cx with hp := pieza_rey_cx.hp - 3 } ∈
      (recibir_damage_vivos [pieza_rey_cx] pieza_rey_cx 3).1 :=
  ⟨((c4_recibir_damage [pieza_rey_cx] pieza_rey_cx 12).1 (by decide)).1,
   ((c4_recibir_damage [pieza_rey_cx] pieza_rey_cx 3).2 (by decide)).1,
   ((c4_recibir_damage [pieza_rey_cx] pieza_rey_cx 3).2 (by decide)).2
     (by decide)⟩

/-- C8: the pawn flag starts true, the post-move hook clears it, no
modelled operation sets it back, and a pawn whose flag is cleared is never
offered the two-step square again. -/
theorem c8_primer_movimiento (x y hp0 dmg : Int) (team nom : String)
    (p : Pieza) (d : Int) (q : Consulta) :
    (nuevo_peon x y team hp0 dmg nom).primer_movimiento = true ∧
    (p.clase = Clase.peon → (post_move p).primer_movimiento = false) ∧
    (p.primer_movimiento = false →
      (post_move p).primer_movimiento = false ∧
      ((recibir_damage p d).1).primer_movimiento = false ∧
      ∀ x2 y2 : Int,
        (post_move { p with grid_x := x2, grid_y := y2 }).primer_movimiento =
          false) ∧
    (p.primer_movimiento = false →
      (p.grid_x, p.grid_y + (if p.team = TEAM_PLAYER then -1 else 1) * 2) ∉
        movimientos_peon p q) := by
  have hD : (if p.team = TEAM_PLAYER then -1 else (1 : Int)) = -1 ∨
      (if p.team = TEAM_PLAYER then -1 else (1 : Int)) = 1 := by
    split_ifs <;> simp
  refine ⟨rfl, ?_, ?_, ?_⟩
  · intro hc
    simp [post_move, hc]
  · intro hflag
    refine ⟨?_, ?_, ?_⟩
    · by_cases hc : p.clase = Clase.peon <;> simp [post_move, hc, hflag]
    · simp only [recibir_damage]
      split_ifs <;> simpa using hflag
    · intro x2 y2
      by_cases hc : p.clase = Clase.peon <;> simp [post_move, hc, hflag]
  · intro hflag hmem
    rcases (mem_peon_iff p q _ _).mp hmem with
      ⟨_, hb, _⟩ | ⟨_, _, hpm, _⟩ | ⟨dx2, hdx2, ha, _⟩
    · rcases hD with h1 | h1 <;> rw [h1] at hb <;> omega
    · rw [hflag] at hpm
      simp at hpm
    · rcases hdx2 with rfl | rfl <;> omega

/-- Witness for C8: the scenario pawn with a cleared flag loses the
two-step square on the empty board. -/
theorem c8_witness :
    ({ pieza_peon_cx with primer_movimiento := false }.grid_x,
      { pieza_peon_cx with primer_movimiento := false }.grid_y +
        (if { pieza_peon_cx with primer_movimiento := false }.team =
          TEAM_PLAYER then -1 else 1) * 2) ∉
      movimientos_peon { pieza_peon_cx with primer_movimiento := false }
        consulta_vacia :=
  (c8_primer_movimiento 0 0 5 2 "JUGADOR" "Peon"
    { pieza_peon_cx with primer_movimiento := false } 1 consulta_vacia).2.2.2
    (by decide)

/-- C2: each frame of the battle loop evaluates the terminal conditions
after the applied moves, boss death first (so a simultaneous player-king
death still yields Victory), player-king death second; and once the loop
flag is cleared no further frame runs, so no move is accepted. -/
theorem c2_orden_terminal (st : EstadoSombras) (evs : List Evento)
    (dec : DecisionIA) :
    (boss_muerto (bloque_ia (evs.foldl procesar_evento st) dec).tablero =
        true →
      (cuadro st evs dec).resultado = some Resultado.victoria ∧
      (cuadro st evs dec).corriendo = false) ∧
    (boss_muerto (bloque_ia (evs.foldl procesar_evento st) dec).tablero =
        false →
      jugador_muerto (bloque_ia (evs.foldl procesar_evento st) dec).tablero =
        true →
      (cuadro st evs dec).resultado = some Resultado.derrota ∧
      (cuadro st evs dec).corriendo = false) ∧
    (∀ entradas, st.corriendo = false → correr_juego st entradas = st) := by
  refine ⟨?_, ?_, ?_⟩
  · intro hb
    simp [cuadro, verificar_terminal, hb]
  · intro hb hj
    simp [cuadro, verificar_terminal, hb, hj]
  · intro entradas hc
    cases entradas with
    | nil => rfl
    | cons e r => simp [correr_juego, hc]

/-- Witness for C2: on the empty board both terminal flags hold and the
frame announces Victory; a stopped loop ignores further inputs. -/
theorem c2_witness :
    (cuadro (estado_inicial { piezas := [] }) [] decision_nula_cx).resultado =
      some Resultado.victoria ∧
    (cuadro (estado_inicial { piezas := [] }) [] decision_nula_cx).corriendo =
      false ∧
    correr_juego
      { estado_inicial { piezas := [] } with corriendo := false }
      [([], decision_nula_cx)] =
      { estado_inicial { piezas := [] } with corriendo := false } :=
  ⟨((c2_orden_terminal (estado_inicial { piezas := [] }) []
      decision_nula_cx).1 (by decide)).1,
   ((c2_orden_terminal (estado_inicial { piezas := [] }) []
      decision_nula_cx).1 (by decide)).2,
   (c2_orden_terminal
      { estado_inicial { piezas := [] } with corriendo := false } []
      decision_nula_cx).2.2 [([], decision_nula_cx)] rfl⟩

/-- C6: the loop starts in the player turn; a click that applies a valid
move hands the turn to the enemy; clicks are ignored outside the player
turn; the enemy block hands the turn back to the player whether or not a
move was found, and does nothing outside the enemy turn. -/
theorem c6_alternancia (t : TableroSombras) (st : EstadoSombras)
    (gx gy : Int) (sel : Pieza) (dec : DecisionIA) :
    (estado_inicial t).turno = "JUGADOR" ∧
    (st.turno = "JUGADOR" → st.pieza_seleccionada = some sel →
      (0 ≤ gx ∧ gx < GRID_WIDTH ∧ 0 ≤ gy ∧ gy < GRID_HEIGHT) →
      obtener_pieza_en st.tablero gx gy ≠ some sel →
      (gx, gy) ∈ obtener_movimientos_validos sel (consulta st.tablero) →
      (procesar_evento st (Evento.click_en gx gy)).turno = "ENEMIGO" ∧
      (procesar_evento st (Evento.click_en gx gy)).tablero =
        mover_pieza st.tablero sel gx gy) ∧
    (st.turno ≠ "JUGADOR" →
      procesar_evento st (Evento.click_en gx gy) = st) ∧
    (st.turno = "ENEMIGO" → (bloque_ia st dec).turno = "JUGADOR") ∧
    (st.turno ≠ "ENEMIGO" → bloque_ia st dec = st) := by
  refine ⟨rfl, ?_, ?_, ?_, ?_⟩
  · intro h1 h2 h3 h4 h5
    constructor <;> simp [procesar_evento, h1, h2, h3, h4, h5]
  · intro h1
    simp [procesar_evento, h1]
  · intro ht
    simp [bloque_ia, ht]
  · intro ht
    simp [bloque_ia, ht]

/-- Witness for C6: moving the selected scenario pawn one step forward
hands the turn to the enemy, and the empty enemy decision hands it back. -/
theorem c6_witness :
    (estado_inicial tablero_peon_cx).turno = "JUGADOR" ∧
    (procesar_evento estado_sel_cx (Evento.click_en 4 5)).turno =
      "ENEMIGO" ∧
    (bloque_ia estado_enemigo_cx decision_nula_cx).turno = "JUGADOR" :=
  ⟨(c6_alternancia tablero_peon_cx estado_sel_cx 4 5 pieza_peon_cx
      decision_nula_cx).1,
   ((c6_alternancia tablero_peon_cx estado_sel_cx 4 5 pieza_peon_cx
      decision_nula_cx).2.1 rfl rfl (by decide) (by decide) (by decide)).1,
   (c6_alternancia tablero_peon_cx estado_enemigo_cx 4 5 pieza_peon_cx
      decision_nula_cx).2.2.2.1 rfl⟩

/-- C7: when the AI returns no move during the enemy turn, the turn still
goes back to the player, the move step leaves the board with only the
summoned pieces appended (unchanged when nothing was summoned), and the
no-move raises no terminal state. -/
theorem c7_ia_sin_movimiento (st : EstadoSombras) (dec : DecisionIA)
    (ht : st.turno = "ENEMIGO") (hmv : dec.movimiento = none) :
    (bloque_ia st dec).turno = "JUGADOR" ∧
    (bloque_ia st dec).tablero.piezas = st.tablero.piezas ++ dec.invocadas ∧
    (dec.invocadas = [] →
      (bloque_ia st dec).tablero = st.tablero ∧
      (boss_muerto st.tablero = false → jugador_muerto st.tablero = false →
        (verificar_terminal (bloque_ia st dec)).resultado = st.resultado ∧
        (verificar_terminal (bloque_ia st dec)).corriendo =
          st.corriendo)) := by
  have hb : bloque_ia st dec =
      { st with tablero := invocar_sombra st.tablero dec.invocadas,
                turno := "JUGADOR" } := by
    simp [bloque_ia, ht, paso_movimiento_ia, hmv]
  refine ⟨by rw [hb], by rw [hb]; rfl, ?_⟩
  intro hinv
  have htb : (bloque_ia st dec).tablero = st.tablero := by
    rw [hb, hinv]
    simp [invocar_sombra]
  refine ⟨htb, ?_⟩
  intro hbm hjm
  have hvt : verificar_terminal (bloque_ia st dec) = bloque_ia st dec := by
    simp only [verificar_terminal, htb, hbm, hjm]
    simp
  constructor
  · rw [hvt, hb]
  · rw [hvt, hb]

/-- Witness for C7: on the full board the empty enemy decision cedes the
turn, keeps the board, and raises no terminal state. -/
theorem c7_witness :
    (bloque_ia estado_enemigo_cx decision_nula_cx).turno = "JUGADOR" ∧
    (bloque_ia estado_enemigo_cx decision_nula_cx).tablero =
      estado_enemigo_cx.tablero ∧
    (verificar_terminal
        (bloque_ia estado_enemigo_cx decision_nula_cx)).resultado =
      estado_enemigo_cx.resultado :=
  ⟨(c7_ia_sin_movimiento estado_enemigo_cx decision_nula_cx rfl rfl).1,
   ((c7_ia_sin_movimiento estado_enemigo_cx decision_nula_cx rfl rfl).2.2
      rfl).1,
   (((c7_ia_sin_movimiento estado_enemigo_cx decision_nula_cx rfl rfl).2.2
      rfl).2 (by decide) (by decide)).1⟩
